import Mathlib

/-!
A shallow embedding of openr's RIB policy engine
(`src/openr/decision/RibPolicy.cpp`).

Modelling conventions:
* `std::chrono::steady_clock` instants are modelled as `Int` millisecond
  counts on the monotonic clock (millisecond resolution is the finest the
  class observes: `getTtlDuration` is `duration_cast<milliseconds>`).
  `std::chrono::duration_cast` truncates toward zero, hence `Int.tdiv`.
* Thrift structures (`thrift::RibPolicyStatement`, `thrift::RibPolicy`,
  `thrift::NextHopThrift`, ...) are not under `src/`; they are modelled from
  the spec's input-definition schema (weights are unsigned integers, the
  area-to-weight mapping is a finite string-keyed map, next-hop equality is
  full value equality including the weight).
* `std::unordered_set` becomes `Finset`; the C++ loops that populate such
  sets become `List.foldl` over the element list, so the set-insert
  semantics (duplicates collapse) is preserved literally.
* C++ constructors that `throw thrift::OpenrError` become functions into
  `Except OpenrError _`, so a failed construction produces no object.
* Statement-local mutation of the route (`RibUnicastEntry&`) becomes
  explicit state passing: `applyAction` returns `Bool × RibUnicastEntry`.
-/

/-- Modelled from the spec: a network prefix is "address + mask length"; the
on-the-wire `thrift::IpPrefix` and the in-memory `folly::CIDRNetwork` carry
the same information, so one type models both. -/
structure IpPrefix where
  addr : Nat
  len : Nat
deriving DecidableEq

/-- Modelled from the spec: `toIPNetwork` (not under `src/`) converts a
`thrift::IpPrefix` to the in-memory network form; with both sides modelled
by `IpPrefix`, it is the identity. -/
def toIPNetwork (p : IpPrefix) : IpPrefix := p

/-- Modelled from the spec: `toIpPrefix` (not under `src/`) converts an
in-memory network back to its thrift form; the identity here. -/
def toIpPrefix (p : IpPrefix) : IpPrefix := p

/-- Modelled from the spec: a next-hop carries an opaque address, an
optional area identifier and a weight; equality is full value equality
(including the weight), which is what keys the `std::unordered_set`. -/
structure NextHopThrift where
  address : Nat
  area : Option String
  weight : Nat
deriving DecidableEq

/-- Modelled from the spec: `action.set_weight` is a default weight plus a
map from area identifier to weight override (keys unique, as a thrift map). -/
structure RibRouteActionWeight where
  default_weight : Nat
  area_to_weight : List (String × Nat)
deriving DecidableEq

/-- Modelled from the spec: the action of a policy statement; `set_weight`
is an optional field of the thrift struct. -/
structure RibRouteAction where
  set_weight : Option RibRouteActionWeight
deriving DecidableEq

/-- Modelled from the spec: the matcher of a policy statement; `prefixes`
is an optional field of the thrift struct. -/
structure RibRouteMatcher where
  prefixes : Option (List IpPrefix)
deriving DecidableEq

/-- Modelled from the spec: the thrift (wire) form of one policy statement. -/
structure ThriftRibPolicyStatement where
  name : String
  matcher : RibRouteMatcher
  action : RibRouteAction
deriving DecidableEq

/-- Modelled from the spec: the thrift (wire) form of a whole policy.
`ttl_secs` is a signed integer number of seconds. -/
structure ThriftRibPolicy where
  statements : List ThriftRibPolicyStatement
  ttl_secs : Int
deriving DecidableEq

/-- Modelled from the spec: `thrift::OpenrError` carries a human-readable
message; it is the error thrown by the constructors. -/
structure OpenrError where
  message : String
deriving DecidableEq

/-- Modelled from the spec: a RIB route entry: one unicast prefix plus its
current set of next-hops (`route.prefix` / `route.nexthops`). -/
structure RibUnicastEntry where
  prefix_ : IpPrefix
  nexthops : Finset NextHopThrift
deriving DecidableEq

/-- Sort key giving `IpPrefix` a linear order, so that iterating over a
`Finset IpPrefix` (the C++ `unordered_set`, whose iteration order is
unspecified) can be modelled by a computable canonical enumeration. -/
def IpPrefix.key (p : IpPrefix) : Lex (Nat × Nat) :=
  toLex (p.addr, p.len)

instance : LinearOrder IpPrefix :=
  LinearOrder.lift' IpPrefix.key (by
    intro a b h
    cases a; cases b
    have h' := toLex.injective h
    simpa [IpPrefix.mk.injEq] using h')

/-- Sort key giving `NextHopThrift` a linear order (same purpose as
`IpPrefix.key`). -/
def NextHopThrift.key (nh : NextHopThrift) :
    Lex (Nat × Lex (WithBot String × Nat)) :=
  toLex (nh.address, toLex ((show WithBot String from nh.area), nh.weight))

instance : LinearOrder NextHopThrift :=
  LinearOrder.lift' NextHopThrift.key (by
    intro a b h
    cases a; cases b
    have h' := toLex.injective h
    rw [Prod.mk.injEq] at h'
    have h'' := toLex.injective h'.2
    rw [Prod.mk.injEq] at h''
    simpa [NextHopThrift.mk.injEq] using ⟨h'.1, h''.1, h''.2⟩)

/-- A computable canonical enumeration of a multiset (insertion sort of any
representative list). Models iterating over a C++ set. -/
def msort {α : Type} [LinearOrder α] (m : Multiset α) : List α :=
  Quot.liftOn m (fun l => l.insertionSort (· ≤ ·)) fun l₁ l₂ h =>
    List.eq_of_perm_of_sorted
      ((List.perm_insertionSort _ l₁).trans
        (h.trans (List.perm_insertionSort _ l₂).symm))
      (List.sorted_insertionSort _ l₁) (List.sorted_insertionSort _ l₂)

/-- A computable canonical enumeration of a finite set's elements. -/
def sortedList {α : Type} [LinearOrder α] (s : Finset α) : List α :=
  msort s.val

/-- `folly::get_default(map, key, dflt)`: the mapped value when the key is
present, the default otherwise. -/
def getDefault (m : List (String × Nat)) (k : String) (d : Nat) : Nat :=
  (m.lookup k).getD d

/-- In-memory `openr::RibPolicyStatement`: name, the verbatim thrift
action, and the prefix match set. The `CHECK` in `applyAction` asserts the
constructor-established invariant that `set_weight` is present; that
invariant is carried as a field. -/
structure RibPolicyStatement where
  name_ : String
  action_ : RibRouteAction
  prefixSet_ : Finset IpPrefix
  hasWeightAction : action_.set_weight.isSome = true

/-- `RibPolicyStatement::RibPolicyStatement(thrift::RibPolicyStatement const&)`:
verifies `action.set_weight` is present, then `matcher.prefixes` is present,
then builds `prefixSet_` by inserting `toIPNetwork` of every listed prefix. -/
def RibPolicyStatement.ofThrift (stmt : ThriftRibPolicyStatement) :
    Except OpenrError RibPolicyStatement :=
  match h : stmt.action.set_weight with
  | none => .error ⟨"Missing policy_statement.action.set_weight attribute"⟩
  | some _ =>
    match stmt.matcher.prefixes with
    | none => .error ⟨"Missing policy_statement.matcher.prefixes attribute"⟩
    | some ps =>
      .ok ⟨stmt.name, stmt.action,
        ps.foldl (fun acc tp => insert (toIPNetwork tp) acc) ∅,
        by rw [h]; rfl⟩

/-- `RibPolicyStatement::toThrift()`: re-emits the name and the action
verbatim, and the match set as an explicit list of prefixes (set iteration
order). -/
def RibPolicyStatement.toThrift (s : RibPolicyStatement) :
    ThriftRibPolicyStatement :=
  { name := s.name_
    matcher := ⟨some ((sortedList s.prefixSet_).map toIpPrefix)⟩
    action := s.action_ }

/-- `RibPolicyStatement::match(route)`: true iff the route's prefix is a
member of `prefixSet_` (`prefixSet_.count(route.prefix) > 0`). -/
def RibPolicyStatement.matchRoute (s : RibPolicyStatement)
    (route : RibUnicastEntry) : Bool :=
  decide (route.prefix_ ∈ s.prefixSet_)

/-- The weight the action assigns to one next-hop: the area override when
the next-hop has an area that is a key of `area_to_weight`, otherwise the
default weight. This is the `new_weight` computation of the loop body of
`RibPolicyStatement::applyAction`. -/
def candidateWeight (wa : RibRouteActionWeight) (nh : NextHopThrift) : Nat :=
  match nh.area with
  | some a => getDefault wa.area_to_weight a wa.default_weight
  | none => wa.default_weight

/-- `RibPolicyStatement::applyAction(route)`: returns `(false, route)` when
the route does not match; otherwise builds a fresh next-hop set by
inserting, for every current next-hop whose computed weight is positive, a
copy with that weight (weight-0 next-hops are skipped), replaces
`route.nexthops` with it, and returns true. -/
def RibPolicyStatement.applyAction (s : RibPolicyStatement)
    (route : RibUnicastEntry) : Bool × RibUnicastEntry :=
  if ¬ s.matchRoute route then
    (false, route)
  else
    let weightAction := s.action_.set_weight.get s.hasWeightAction
    let newNexthops := (sortedList route.nexthops).foldl
      (fun acc nh =>
        if candidateWeight weightAction nh > 0 then
          insert { nh with weight := candidateWeight weightAction nh } acc
        else
          acc)
      (∅ : Finset NextHopThrift)
    (true, { route with nexthops := newNexthops })

/-- The next-hop set described by the spec's words for a matched route:
the set of copies of the original next-hops with their weight replaced by
`candidateWeight`, where next-hops whose `candidateWeight` is 0 are
dropped and equal transformed copies collapse by set semantics. Stated
from the spec, to be compared against the loop in
`RibPolicyStatement.applyAction`. -/
def specTransformedNexthops (wa : RibRouteActionWeight)
    (nhs : Finset NextHopThrift) : Finset NextHopThrift :=
  Finset.image (fun nh => { nh with weight := candidateWeight wa nh })
    (Finset.filter (fun nh => candidateWeight wa nh ≠ 0) nhs)

/-- In-memory `openr::RibPolicy`: the ordered statements plus the absolute
monotonic expiry instant `validUntilTs_` (milliseconds). -/
structure RibPolicy where
  policyStatements_ : List RibPolicyStatement
  validUntilTs_ : Int

/-- The statement-construction loop of `RibPolicy::RibPolicy`: constructs
each statement in definition order, propagating the first failure. -/
def statementsOfThrift : List ThriftRibPolicyStatement →
    Except OpenrError (List RibPolicyStatement)
  | [] => .ok []
  | stmt :: rest =>
    match RibPolicyStatement.ofThrift stmt with
    | .error e => .error e
    | .ok s =>
      match statementsOfThrift rest with
      | .error e => .error e
      | .ok srest => .ok (s :: srest)

/-- `RibPolicy::RibPolicy(thrift::RibPolicy const&)`: sets
`validUntilTs_ = steady_clock::now() + seconds(ttl_secs)`, fails when the
statement list is empty, and otherwise constructs every statement in order
(any statement's failure propagates). `now` is the construction instant in
milliseconds. -/
def RibPolicy.ofThrift (now : Int) (policy : ThriftRibPolicy) :
    Except OpenrError RibPolicy :=
  let validUntilTs := now + policy.ttl_secs * 1000
  if policy.statements.isEmpty then
    .error ⟨"Missing policy.statements attribute"⟩
  else
    match statementsOfThrift policy.statements with
    | .error e => .error e
    | .ok stmts => .ok ⟨stmts, validUntilTs⟩

/-- `RibPolicy::toThrift()` at instant `now`: each statement's thrift form
in order, and `ttl_secs` recomputed as
`duration_cast<seconds>(validUntilTs_ - now)` (truncation toward zero). -/
def RibPolicy.toThrift (p : RibPolicy) (now : Int) : ThriftRibPolicy :=
  { statements := p.policyStatements_.map RibPolicyStatement.toThrift
    ttl_secs := Int.tdiv (p.validUntilTs_ - now) 1000 }

/-- `RibPolicy::getTtlDuration()` at instant `now`:
`duration_cast<milliseconds>(validUntilTs_ - now)`, the identity in the
millisecond model. -/
def RibPolicy.getTtlDuration (p : RibPolicy) (now : Int) : Int :=
  p.validUntilTs_ - now

/-- `RibPolicy::isActive()` at instant `now`:
`getTtlDuration().count() > 0`. -/
def RibPolicy.isActive (p : RibPolicy) (now : Int) : Bool :=
  decide (p.getTtlDuration now > 0)

/-- `RibPolicy::match(route)`: true iff some statement matches. -/
def RibPolicy.matchRoute (p : RibPolicy) (route : RibUnicastEntry) : Bool :=
  p.policyStatements_.any (fun s => s.matchRoute route)

/-- The loop of `RibPolicy::applyAction`: try each statement in order on
the (threaded) route, returning at the first statement whose `applyAction`
returns true. -/
def RibPolicy.applyActionList : List RibPolicyStatement → RibUnicastEntry →
    Bool × RibUnicastEntry
  | [], route => (false, route)
  | s :: rest, route =>
    let res := s.applyAction route
    if res.1 then (true, res.2) else RibPolicy.applyActionList rest res.2

/-- `RibPolicy::applyAction(route)`: first-match-wins over the statements. -/
def RibPolicy.applyAction (p : RibPolicy) (route : RibUnicastEntry) :
    Bool × RibUnicastEntry :=
  RibPolicy.applyActionList p.policyStatements_ route

/-! Concrete values used by the witness and counterexample theorems. -/

/-- `10.0.0.0/8`, as an opaque (address, mask-length) pair. -/
def pfxA : IpPrefix := ⟨10, 8⟩

/-- `192.0.0.0/16`, a second prefix, distinct from `pfxA`. -/
def pfxB : IpPrefix := ⟨192, 16⟩

/-- A weight action: default weight 1, area "area1" mapped to 5 and area
"z" mapped to 0. -/
def exampleWeightAction : RibRouteActionWeight := ⟨1, [("area1", 5), ("z", 0)]⟩

/-- An in-memory statement matching exactly `pfxA` with
`exampleWeightAction`. -/
def exampleStatement : RibPolicyStatement :=
  ⟨"stmt1", ⟨some exampleWeightAction⟩, {pfxA}, rfl⟩

/-- A route on `pfxA` with four next-hops: one in the remapped area
"area1", one with no area, one in the weight-0 area "z", and a duplicate of
the first that differs only in its original weight (so the two collapse
after reweighting). -/
def exampleRoute : RibUnicastEntry :=
  ⟨pfxA, {⟨1, some "area1", 1⟩, ⟨2, none, 1⟩, ⟨3, some "z", 1⟩,
    ⟨1, some "area1", 7⟩}⟩

/-- A route on `pfxB`, which `exampleStatement` does not match. -/
def exampleRouteB : RibUnicastEntry :=
  ⟨pfxB, {⟨1, some "area1", 1⟩}⟩

/-- The thrift form of `exampleStatement` (action and one-element matcher
both present). -/
def exampleThriftStatement : ThriftRibPolicyStatement :=
  ⟨"stmt1", ⟨some [pfxA]⟩, ⟨some exampleWeightAction⟩⟩

/-- A valid thrift policy definition: one statement, ttl 10 seconds. -/
def exampleThriftPolicy : ThriftRibPolicy := ⟨[exampleThriftStatement], 10⟩

/-- The policy produced by constructing `exampleThriftPolicy` at instant
500 ms: expiry at 500 + 10*1000 = 10500 ms. -/
def examplePolicy : RibPolicy := ⟨[exampleStatement], 10500⟩

/-- A thrift policy definition that is valid except that its ttl is 0
seconds. -/
def exampleThriftPolicyTtl0 : ThriftRibPolicy := ⟨[exampleThriftStatement], 0⟩

/-- A thrift statement whose matcher field is present but whose prefix
list is empty (and whose action is present). -/
def emptyMatcherStatement : ThriftRibPolicyStatement :=
  ⟨"emptyMatch", ⟨some []⟩, ⟨some exampleWeightAction⟩⟩

/-- A thrift statement whose matcher `prefixes` field is absent (and whose
action is present). -/
def noMatcherStatement : ThriftRibPolicyStatement :=
  ⟨"noMatch", ⟨none⟩, ⟨some exampleWeightAction⟩⟩

/-! Helper lemmas about the embedding. -/

theorem msort_coe {α : Type} [LinearOrder α] (l : List α) :
    msort (l : Multiset α) = l.insertionSort (· ≤ ·) := rfl

theorem mem_msort {α : Type} [LinearOrder α] {m : Multiset α} {a : α} :
    a ∈ msort m ↔ a ∈ m := by
  refine Quot.inductionOn m fun l => ?_
  simp [msort, List.mem_insertionSort]

theorem mem_sortedList {α : Type} [LinearOrder α] {s : Finset α} {a : α} :
    a ∈ sortedList s ↔ a ∈ s := by
  rw [sortedList, mem_msort]
  exact Finset.mem_val

theorem toFinset_sortedList {α : Type} [LinearOrder α] [DecidableEq α]
    (s : Finset α) : (sortedList s).toFinset = s := by
  ext a
  simp [List.mem_toFinset, mem_sortedList]

theorem list_toFinset_map {α β : Type} [DecidableEq α] [DecidableEq β]
    (f : α → β) (l : List α) : (l.map f).toFinset = l.toFinset.image f := by
  ext b
  simp

theorem foldl_insert_map {α β : Type} [DecidableEq β] (f : α → β)
    (l : List α) (acc : Finset β) :
    l.foldl (fun a x => insert (f x) a) acc = acc ∪ (l.map f).toFinset := by
  induction l generalizing acc with
  | nil => simp
  | cons x xs ih => simp [ih, Finset.insert_union, Finset.union_insert]

theorem foldl_insert_ite {α β : Type} [DecidableEq β] (p : α → Prop)
    [DecidablePred p] (f : α → β) (l : List α) (acc : Finset β) :
    l.foldl (fun a x => if p x then insert (f x) a else a) acc
      = acc ∪ ((l.filter fun x => decide (p x)).map f).toFinset := by
  induction l generalizing acc with
  | nil => simp
  | cons x xs ih =>
    by_cases hx : p x
    · simp [hx, ih, List.filter_cons, Finset.insert_union, Finset.union_insert]
    · simp [hx, ih, List.filter_cons]

theorem matchRoute_eq_true_iff (s : RibPolicyStatement) (r : RibUnicastEntry) :
    s.matchRoute r = true ↔ r.prefix_ ∈ s.prefixSet_ := by
  simp [RibPolicyStatement.matchRoute]

theorem applyAction_of_not_match (s : RibPolicyStatement)
    (r : RibUnicastEntry) (h : r.prefix_ ∉ s.prefixSet_) :
    s.applyAction r = (false, r) := by
  simp [RibPolicyStatement.applyAction, RibPolicyStatement.matchRoute, h]

theorem applyAction_of_match (s : RibPolicyStatement) (r : RibUnicastEntry)
    (h : r.prefix_ ∈ s.prefixSet_) :
    s.applyAction r = (true,
      { r with
        nexthops := specTransformedNexthops
          (s.action_.set_weight.get s.hasWeightAction) r.nexthops }) := by
  rw [RibPolicyStatement.applyAction]
  rw [if_neg (by simp [RibPolicyStatement.matchRoute, h])]
  simp only [gt_iff_lt]
  simp only [foldl_insert_ite]
  rw [list_toFinset_map, List.toFinset_filter, toFinset_sortedList]
  rw [specTransformedNexthops]
  rw [Finset.filter_congr (q := fun nh =>
    candidateWeight (s.action_.set_weight.get s.hasWeightAction) nh ≠ 0)
    (fun x _ => by simp [Nat.pos_iff_ne_zero])]
  simp

theorem applyAction_fst (s : RibPolicyStatement) (r : RibUnicastEntry) :
    (s.applyAction r).1 = s.matchRoute r := by
  by_cases h : r.prefix_ ∈ s.prefixSet_
  · simp [applyAction_of_match s r h, RibPolicyStatement.matchRoute, h]
  · simp [applyAction_of_not_match s r h, RibPolicyStatement.matchRoute, h]

theorem applyAction_snd_prefix (s : RibPolicyStatement) (r : RibUnicastEntry) :
    ((s.applyAction r).2).prefix_ = r.prefix_ := by
  by_cases h : r.prefix_ ∈ s.prefixSet_
  · simp [applyAction_of_match s r h]
  · simp [applyAction_of_not_match s r h]

theorem applyActionList_eq (l : List RibPolicyStatement)
    (r : RibUnicastEntry) :
    RibPolicy.applyActionList l r =
      match l.find? (fun s => s.matchRoute r) with
      | some s => (true, (s.applyAction r).2)
      | none => (false, r) := by
  induction l with
  | nil => rfl
  | cons s rest ih =>
    rw [RibPolicy.applyActionList]
    by_cases h : r.prefix_ ∈ s.prefixSet_
    · have hm : (fun st : RibPolicyStatement => st.matchRoute r) s = true :=
        (matchRoute_eq_true_iff s r).mpr h
      have h1 : (s.applyAction r).1 = true := by
        rw [applyAction_fst]; exact (matchRoute_eq_true_iff s r).mpr h
      rw [List.find?_cons_of_pos (p := fun st => st.matchRoute r) rest hm]
      simp [h1]
    · have hm : ¬ (fun st : RibPolicyStatement => st.matchRoute r) s = true := by
        simp [RibPolicyStatement.matchRoute, h]
      have hs := applyAction_of_not_match s r h
      rw [List.find?_cons_of_neg (p := fun st => st.matchRoute r) rest hm]
      rw [hs]
      simp [ih]

theorem statementsOfThrift_isOk (l : List ThriftRibPolicyStatement) :
    (statementsOfThrift l).isOk
      = l.all (fun s => (RibPolicyStatement.ofThrift s).isOk) := by
  induction l with
  | nil => rfl
  | cons s rest ih =>
    rw [statementsOfThrift, List.all_cons, ← ih]
    cases RibPolicyStatement.ofThrift s with
    | error e => rfl
    | ok st =>
      cases statementsOfThrift rest with
      | error e => rfl
      | ok srest => rfl

theorem statementsOfThrift_isOk_false_iff (l : List ThriftRibPolicyStatement) :
    (statementsOfThrift l).isOk = false ↔
      ∃ s ∈ l, (RibPolicyStatement.ofThrift s).isOk = false := by
  rw [statementsOfThrift_isOk]
  simp

theorem statementsOfThrift_length (l : List ThriftRibPolicyStatement)
    (out : List RibPolicyStatement) (h : statementsOfThrift l = .ok out) :
    out.length = l.length := by
  induction l generalizing out with
  | nil =>
    rw [statementsOfThrift] at h
    cases h
    rfl
  | cons s rest ih =>
    rw [statementsOfThrift] at h
    cases hs : RibPolicyStatement.ofThrift s with
    | error e => rw [hs] at h; cases h
    | ok st =>
      rw [hs] at h
      cases hr : statementsOfThrift rest with
      | error e => rw [hr] at h; cases h
      | ok srest =>
        rw [hr] at h
        cases h
        simp [ih srest hr]

theorem map_toIpPrefix_id (l : List IpPrefix) : l.map toIpPrefix = l := by
  induction l with
  | nil => rfl
  | cons x xs ih => simp [toIpPrefix, ih]

theorem map_toIPNetwork_id (l : List IpPrefix) : l.map toIPNetwork = l := by
  induction l with
  | nil => rfl
  | cons x xs ih => simp [toIPNetwork, ih]

theorem statement_roundtrip (s : RibPolicyStatement) :
    RibPolicyStatement.ofThrift s.toThrift = .ok s := by
  obtain ⟨n, a, ps, hp⟩ := s
  obtain ⟨w, hw⟩ := Option.isSome_iff_exists.mp hp
  simp only [RibPolicyStatement.toThrift, RibPolicyStatement.ofThrift]
  split
  · next heq => rw [heq] at hp; cases hp
  · next w' heq =>
    rw [foldl_insert_map toIPNetwork]
    simp only [Finset.empty_union]
    rw [map_toIpPrefix_id, map_toIPNetwork_id, toFinset_sortedList]

theorem statements_roundtrip (l : List RibPolicyStatement) :
    statementsOfThrift (l.map RibPolicyStatement.toThrift) = .ok l := by
  induction l with
  | nil => rfl
  | cons s rest ih =>
    rw [List.map_cons, statementsOfThrift, statement_roundtrip, ih]

theorem ribPolicy_ofThrift_ok_elim {now : Int} {d : ThriftRibPolicy}
    {p : RibPolicy} (h : RibPolicy.ofThrift now d = .ok p) :
    d.statements.isEmpty = false ∧
      statementsOfThrift d.statements = .ok p.policyStatements_ ∧
      p.validUntilTs_ = now + d.ttl_secs * 1000 := by
  simp only [RibPolicy.ofThrift] at h
  by_cases he : d.statements.isEmpty
  · rw [if_pos he] at h; cases h
  · rw [if_neg he] at h
    cases hs : statementsOfThrift d.statements with
    | error e => rw [hs] at h; cases h
    | ok stmts =>
      rw [hs] at h
      cases h
      exact ⟨by simpa using he, rfl, rfl⟩

theorem ribPolicy_ofThrift_eq_ok {now : Int} {d : ThriftRibPolicy}
    {stmts : List RibPolicyStatement}
    (he : d.statements.isEmpty = false)
    (hs : statementsOfThrift d.statements = .ok stmts) :
    RibPolicy.ofThrift now d = .ok ⟨stmts, now + d.ttl_secs * 1000⟩ := by
  simp only [RibPolicy.ofThrift]
  rw [if_neg (by simp [he]), hs]

theorem statement_ofThrift_isOk (stmt : ThriftRibPolicyStatement) :
    (RibPolicyStatement.ofThrift stmt).isOk
      = (stmt.action.set_weight.isSome && stmt.matcher.prefixes.isSome) := by
  simp only [RibPolicyStatement.ofThrift]
  split
  · next heq => simp [heq, Except.isOk, Except.toBool]
  · next w heq =>
    split
    · next heq2 => simp [heq, heq2, Except.isOk, Except.toBool]
    · next ps heq2 => simp [heq, heq2, Except.isOk, Except.toBool]

theorem ribPolicy_ofThrift_isOk (now : Int) (d : ThriftRibPolicy) :
    (RibPolicy.ofThrift now d).isOk
      = (!d.statements.isEmpty
          && d.statements.all (fun s => (RibPolicyStatement.ofThrift s).isOk)) := by
  simp only [RibPolicy.ofThrift]
  by_cases he : d.statements.isEmpty
  · simp [he, Except.isOk, Except.toBool]
  · rw [if_neg he, ← statementsOfThrift_isOk]
    cases statementsOfThrift d.statements with
    | error e => simp [he, Except.isOk, Except.toBool]
    | ok stmts => simp [he, Except.isOk, Except.toBool]

/-! The claim theorems. -/

/-- Claim C1: for every route whose prefix is in the statement's prefix
set, `applyAction` returns true and replaces `route.nexthops` with exactly
the set of copies of the original next-hops reweighted to
`candidateWeight` (area override when the area is mapped, default weight
otherwise), with weight-0 candidates absent and equal copies collapsed by
set semantics (`specTransformedNexthops`). -/
theorem claim_C1 (s : RibPolicyStatement) (r : RibUnicastEntry)
    (h : r.prefix_ ∈ s.prefixSet_) :
    (s.applyAction r).1 = true ∧
    (s.applyAction r).2 = { r with
      nexthops := specTransformedNexthops
        (s.action_.set_weight.get s.hasWeightAction) r.nexthops } := by
  rw [applyAction_of_match s r h]
  exact ⟨rfl, rfl⟩

/-- Witness for C1: a concrete matched route with a remapped area, a
default-weight next-hop, a weight-0 area and a collapsing duplicate. -/
theorem claim_C1_witness :
    exampleRoute.prefix_ ∈ exampleStatement.prefixSet_ ∧
    ((exampleStatement.applyAction exampleRoute).1 = true ∧
      (exampleStatement.applyAction exampleRoute).2 = { exampleRoute with
        nexthops := specTransformedNexthops
          (exampleStatement.action_.set_weight.get exampleStatement.hasWeightAction)
          exampleRoute.nexthops }) :=
  ⟨by decide, claim_C1 exampleStatement exampleRoute (by decide)⟩

/-- Claim C2: `RibPolicy::applyAction` evaluates statements in definition
order and stops at the first that matches: the result is determined by the
first statement whose `matchRoute` holds (`List.find?`), and the returned
flag is true iff some statement matched. -/
theorem claim_C2 (p : RibPolicy) (r : RibUnicastEntry) :
    (p.applyAction r =
      match p.policyStatements_.find? (fun s => s.matchRoute r) with
      | some s => (true, (s.applyAction r).2)
      | none => (false, r)) ∧
    (p.applyAction r).1 = p.policyStatements_.any (fun s => s.matchRoute r) := by
  refine ⟨applyActionList_eq p.policyStatements_ r, ?_⟩
  rw [RibPolicy.applyAction, applyActionList_eq]
  cases hf : p.policyStatements_.find? (fun s => s.matchRoute r) with
  | some s =>
    have h1 := List.find?_some hf
    have h2 := List.mem_of_find?_eq_some hf
    simp only []
    symm
    rw [List.any_eq_true]
    exact ⟨s, h2, h1⟩
  | none =>
    rw [List.find?_eq_none] at hf
    simp only []
    symm
    rw [List.any_eq_false]
    exact hf

/-- Claim C3: construction fails exactly for the three missing-field
conditions: a statement definition without `action.set_weight` or without
`matcher.prefixes`, and a policy definition with an empty statement list
or with some invalid statement (whose failure propagates). An `Except`
error carries no constructed object, so no partial object is produced. -/
theorem claim_C3 (stmt : ThriftRibPolicyStatement) (now : Int)
    (d : ThriftRibPolicy) :
    ((RibPolicyStatement.ofThrift stmt).isOk = false ↔
      stmt.action.set_weight = none ∨ stmt.matcher.prefixes = none) ∧
    ((RibPolicy.ofThrift now d).isOk = false ↔
      d.statements = [] ∨
        ∃ s ∈ d.statements, (RibPolicyStatement.ofThrift s).isOk = false) := by
  constructor
  · rw [statement_ofThrift_isOk]
    cases stmt.action.set_weight <;> cases stmt.matcher.prefixes <;> simp
  · rw [ribPolicy_ofThrift_isOk]
    cases hst : d.statements with
    | nil => simp
    | cons a as =>
      rw [← hst]
      have hne : d.statements ≠ [] := by rw [hst]; exact List.cons_ne_nil a as
      simp [List.isEmpty_iff, hne, List.all_eq_true]

/-- Claim C4: at every instant, `isActive` is true iff `validUntilTs_` is
strictly after the instant (millisecond clock model). -/
theorem claim_C4 (p : RibPolicy) (now : Int) :
    p.isActive now = true ↔ now < p.validUntilTs_ := by
  simp only [RibPolicy.isActive, RibPolicy.getTtlDuration, gt_iff_lt,
    decide_eq_true_eq]
  omega

/-- Claim C5 (amended): serialization emits `ttl_secs` as the remaining
duration truncated toward zero to whole seconds — not the originally
configured `ttl_secs` — and the statements in original order. Because of
the truncation, two different instants within the same whole-second bucket
yield the same `ttl_secs` (see the counterexample). -/
theorem claim_C5_amended (p : RibPolicy) (t : Int) :
    (p.toThrift t).ttl_secs = Int.tdiv (p.getTtlDuration t) 1000 ∧
    (p.toThrift t).statements = p.policyStatements_.map RibPolicyStatement.toThrift :=
  ⟨rfl, rfl⟩

/-- Counterexample to C5 as stated: serializing `examplePolicy` (expiry at
10500 ms) at the two different instants 600 ms and 700 ms yields the same
`ttl_secs` (9), refuting "two different instants yield different
ttl_secs". -/
theorem claim_C5_counterexample :
    (600 : Int) ≠ 700 ∧
    (examplePolicy.toThrift 600).ttl_secs = (examplePolicy.toThrift 700).ttl_secs :=
  ⟨by decide, by decide⟩

/-- Claim C6: round-trip. Reconstructing (at any instant `t'`) from the
serialization (at any instant `t`) of a successfully constructed policy
succeeds and yields exactly the same statement list (hence equal prefix
match sets and equal actions, statement for statement in order); the new
expiry is derived from the remaining, truncated, ttl. -/
theorem claim_C6 (now₀ t t' : Int) (d : ThriftRibPolicy) (p : RibPolicy)
    (h : RibPolicy.ofThrift now₀ d = .ok p) :
    RibPolicy.ofThrift t' (p.toThrift t)
      = .ok ⟨p.policyStatements_,
          t' + Int.tdiv (p.validUntilTs_ - t) 1000 * 1000⟩ := by
  obtain ⟨he, hs, _⟩ := ribPolicy_ofThrift_ok_elim h
  have hlen := statementsOfThrift_length _ _ hs
  have hne : p.policyStatements_ ≠ [] := by
    intro h0
    rw [h0] at hlen
    cases hd : d.statements with
    | nil => rw [hd] at he; cases he
    | cons a as => rw [hd] at hlen; cases hlen
  have he2 : (p.toThrift t).statements.isEmpty = false := by
    simp [RibPolicy.toThrift, List.isEmpty_iff, hne]
  have hs2 : statementsOfThrift (p.toThrift t).statements
      = .ok p.policyStatements_ := statements_roundtrip _
  exact ribPolicy_ofThrift_eq_ok he2 hs2

/-- Witness for C6: constructing `exampleThriftPolicy` at 500 ms gives
`examplePolicy`; serializing at 5 ms and reconstructing at 7 ms succeeds
with the same statements. -/
theorem claim_C6_witness :
    RibPolicy.ofThrift 500 exampleThriftPolicy = .ok examplePolicy ∧
    RibPolicy.ofThrift 7 (examplePolicy.toThrift 5)
      = .ok ⟨examplePolicy.policyStatements_,
          7 + Int.tdiv (examplePolicy.validUntilTs_ - 5) 1000 * 1000⟩ :=
  ⟨by rfl, claim_C6 500 5 7 exampleThriftPolicy examplePolicy (by rfl)⟩

/-- Claim C7: `applyAction` never modifies the route's prefix, and on a
route whose prefix is not in the statement's prefix set it returns false
and leaves the route completely unchanged. -/
theorem claim_C7 (s : RibPolicyStatement) (r : RibUnicastEntry)
    (h : r.prefix_ ∉ s.prefixSet_) :
    s.applyAction r = (false, r) ∧
    ∀ r' : RibUnicastEntry, ((s.applyAction r').2).prefix_ = r'.prefix_ :=
  ⟨applyAction_of_not_match s r h, fun r' => applyAction_snd_prefix s r'⟩

/-- Witness for C7: `exampleStatement` does not match `exampleRouteB`. -/
theorem claim_C7_witness :
    exampleRouteB.prefix_ ∉ exampleStatement.prefixSet_ ∧
    (exampleStatement.applyAction exampleRouteB = (false, exampleRouteB) ∧
      ∀ r' : RibUnicastEntry,
        ((exampleStatement.applyAction r').2).prefix_ = r'.prefix_) :=
  ⟨by decide, claim_C7 exampleStatement exampleRouteB (by decide)⟩

/-- Counterexample to C8 as stated: a statement definition whose matcher
prefix list is present but empty is accepted by the constructor (no
validation error), refuting "a definition whose prefix list is present but
empty fails". -/
theorem claim_C8_counterexample :
    emptyMatcherStatement.matcher.prefixes = some [] ∧
    (RibPolicyStatement.ofThrift emptyMatcherStatement).isOk = true :=
  ⟨rfl, by rfl⟩

/-- Claim C8 (amended): the constructor requires exactly that the
`prefixes` field be present: when it is absent the constructor fails with
the validation error, and whenever `set_weight` and `prefixes` are present
construction succeeds — even for an empty prefix list, which yields a
statement whose prefix set is empty (it matches no route). -/
theorem claim_C8_amended (stmt : ThriftRibPolicyStatement) (l : List IpPrefix)
    (h1 : stmt.action.set_weight.isSome = true) :
    (stmt.matcher.prefixes = none →
      RibPolicyStatement.ofThrift stmt
        = .error ⟨"Missing policy_statement.matcher.prefixes attribute"⟩) ∧
    (stmt.matcher.prefixes = some l →
      RibPolicyStatement.ofThrift stmt
        = .ok ⟨stmt.name, stmt.action, (l.map toIPNetwork).toFinset, h1⟩) := by
  constructor
  · intro h2
    simp only [RibPolicyStatement.ofThrift]
    split
    · next heq => rw [heq] at h1; cases h1
    · next w heq =>
      split
      · rfl
      · next ps heq2 => rw [heq2] at h2; cases h2
  · intro h2
    simp only [RibPolicyStatement.ofThrift]
    split
    · next heq => rw [heq] at h1; cases h1
    · next w heq =>
      split
      · next heq2 => rw [heq2] at h2; cases h2
      · next ps heq2 =>
        rw [heq2] at h2
        cases h2
        rw [foldl_insert_map toIPNetwork, Finset.empty_union]

/-- Witness for C8 (amended), exercising both cases: the concrete
present-but-empty matcher is accepted with an empty prefix set, and the
concrete absent matcher is rejected with the validation error. -/
theorem claim_C8_amended_witness :
    (emptyMatcherStatement.action.set_weight.isSome = true ∧
      emptyMatcherStatement.matcher.prefixes = some [] ∧
      RibPolicyStatement.ofThrift emptyMatcherStatement
        = .ok ⟨emptyMatcherStatement.name, emptyMatcherStatement.action,
            (([] : List IpPrefix).map toIPNetwork).toFinset, rfl⟩) ∧
    (noMatcherStatement.action.set_weight.isSome = true ∧
      noMatcherStatement.matcher.prefixes = none ∧
      RibPolicyStatement.ofThrift noMatcherStatement
        = .error ⟨"Missing policy_statement.matcher.prefixes attribute"⟩) :=
  ⟨⟨rfl, rfl, (claim_C8_amended emptyMatcherStatement [] rfl).2 rfl⟩,
    ⟨rfl, rfl, (claim_C8_amended noMatcherStatement [] rfl).1 rfl⟩⟩

/-- Claim C9: `getTtlDuration` returns exactly `validUntilTs_` minus the
current instant, is negative exactly once the policy is strictly past its
expiry, and strictly decreases as the clock advances. -/
theorem claim_C9 (p : RibPolicy) (now t₁ t₂ : Int) :
    p.getTtlDuration now = p.validUntilTs_ - now ∧
    (p.getTtlDuration now < 0 ↔ p.validUntilTs_ < now) ∧
    (p.getTtlDuration t₂ < p.getTtlDuration t₁ ↔ t₁ < t₂) := by
  refine ⟨rfl, ?_, ?_⟩ <;> simp only [RibPolicy.getTtlDuration] <;> omega

/-- Claim C10: construction does not validate `ttl_secs`: with a non-empty
list of individually valid statements, construction succeeds for any
`ttl_secs ≤ 0`, and the resulting policy has `validUntilTs_` at or before
the construction instant, so `isActive` is already false there. -/
theorem claim_C10 (now : Int) (d : ThriftRibPolicy)
    (h1 : d.statements ≠ [])
    (h2 : ∀ s ∈ d.statements, (RibPolicyStatement.ofThrift s).isOk = true)
    (h3 : d.ttl_secs ≤ 0) :
    (RibPolicy.ofThrift now d).isOk = true ∧
    ∀ p : RibPolicy, RibPolicy.ofThrift now d = .ok p →
      p.validUntilTs_ ≤ now ∧ p.isActive now = false := by
  constructor
  · rw [ribPolicy_ofThrift_isOk]
    simp [List.isEmpty_iff, h1, List.all_eq_true]
    exact h2
  · intro p hp
    obtain ⟨_, _, hv⟩ := ribPolicy_ofThrift_ok_elim hp
    constructor
    · rw [hv]; omega
    · simp only [RibPolicy.isActive, RibPolicy.getTtlDuration, hv,
        gt_iff_lt, decide_eq_false_iff_not]
      omega

/-- Witness for C10: `exampleThriftPolicyTtl0` (ttl 0 s) constructed at
instant 0 succeeds and is immediately inactive. -/
theorem claim_C10_witness :
    exampleThriftPolicyTtl0.statements ≠ [] ∧
    (∀ s ∈ exampleThriftPolicyTtl0.statements,
      (RibPolicyStatement.ofThrift s).isOk = true) ∧
    exampleThriftPolicyTtl0.ttl_secs ≤ 0 ∧
    ((RibPolicy.ofThrift 0 exampleThriftPolicyTtl0).isOk = true ∧
      ∀ p : RibPolicy, RibPolicy.ofThrift 0 exampleThriftPolicyTtl0 = .ok p →
        p.validUntilTs_ ≤ 0 ∧ p.isActive 0 = false) :=
  ⟨by decide, by decide, by decide,
    claim_C10 0 exampleThriftPolicyTtl0 (by decide) (by decide) (by decide)⟩
